import Mathlib

/-!
Verification development for `rofi_rbw.py` (rofi-rbw 0.3.0).

The file contains a shallow embedding of the program's logic:

* models of the Python string builtins the program uses
  (`str.strip`, `str.split('\n')`, `str.replace`, `str.startswith`,
  `str.rsplit('/', 1)`, `sorted`, `'\n'.join`, `bool`);
* the program's own functions (`choose_action_from_return_code`,
  `execute_action`, `get_data`, `extract_username`, the entry-listing part of
  `main`, and `main` itself as a trace-producing function over an environment
  that supplies the results of the external commands);
* theorems settling the specification claims against this embedding.
-/

/-- Model of the ASCII whitespace characters removed by Python `str.strip()`:
space, tab, newline, carriage return, vertical tab, form feed. -/
def pyIsSpace (c : Char) : Bool :=
  c == ' ' || c == '\t' || c == '\n' || c == '\r' || c == Char.ofNat 11 || c == Char.ofNat 12

/-- Model of Python `str.strip()` on a list of characters: drop whitespace from
the front, then from the back. -/
def stripCh (l : List Char) : List Char :=
  ((l.dropWhile pyIsSpace).reverse.dropWhile pyIsSpace).reverse

/-- Model of Python `str.split('\n')` on a list of characters: split at every
newline, keeping empty pieces; the empty string yields `[[]]`. -/
def splitNlCh : List Char → List (List Char)
  | [] => [[]]
  | c :: rest =>
    if c == '\n' then [] :: splitNlCh rest
    else
      match splitNlCh rest with
      | [] => [[c]]
      | h :: t => (c :: h) :: t

/-- Fuel-indexed worker for Python `str.replace(pat, repl)`: scan left to
right, replacing every non-overlapping occurrence of `pat`.  The fuel bounds
the number of steps; `replaceAllCh` supplies `l.length`, which is always
enough because every step consumes at least one character. -/
def replaceAllAux (pat repl : List Char) : Nat → List Char → List Char
  | 0, l => l
  | _ + 1, [] => []
  | fuel + 1, c :: rest =>
    if pat ≠ [] ∧ pat.isPrefixOf (c :: rest) = true then
      repl ++ replaceAllAux pat repl fuel ((c :: rest).drop pat.length)
    else
      c :: replaceAllAux pat repl fuel rest

/-- Model of Python `str.replace(pat, repl)` on lists of characters (for a
non-empty pattern; the program only ever uses non-empty patterns). -/
def replaceAllCh (pat repl l : List Char) : List Char :=
  replaceAllAux pat repl l.length l

/-- Model of Python `pat in s` (substring containment) on lists of characters. -/
def containsSubCh (pat : List Char) : List Char → Bool
  | [] => pat.isEmpty
  | c :: rest => pat.isPrefixOf (c :: rest) || containsSubCh pat rest

/-- Model of Python `str.rsplit('/', 1)` on a list of characters: split once at
the last `'/'`; a list without `'/'` stays whole, as a one-element result. -/
def rsplitSlash1Ch (l : List Char) : List (List Char) :=
  if '/' ∈ l then
    [((l.reverse.dropWhile fun c => !(c == '/')).tail).reverse,
     (l.reverse.takeWhile fun c => !(c == '/')).reverse]
  else [l]

/-- Case-sensitive lexicographic comparison of character lists by code point:
the order Python uses to compare `str` values. -/
def strLeCh : List Char → List Char → Bool
  | [], _ => true
  | _ :: _, [] => false
  | a :: as, b :: bs => if a = b then strLeCh as bs else decide (a < b)

/-- Insert an element into a list sorted by `strLeCh`, before the first
not-smaller element. -/
def insertSortedCh (x : List Char) : List (List Char) → List (List Char)
  | [] => [x]
  | y :: ys => if strLeCh x y then x :: y :: ys else y :: insertSortedCh x ys

/-- Model of Python `sorted` on lists of character lists: insertion sort by
the case-sensitive lexicographic order. -/
def pySortedCh : List (List Char) → List (List Char)
  | [] => []
  | x :: xs => insertSortedCh x (pySortedCh xs)

/-- Join character lists with a newline between consecutive elements
(the character-list core of Python `'\n'.join`). -/
def interNlCh : List (List Char) → List Char
  | [] => []
  | [r] => r
  | r :: rs => r ++ '\n' :: interNlCh rs

/-- Python `str.strip()` on `String`. -/
def pyStrip (s : String) : String := ⟨stripCh s.data⟩

/-- Python `str.split('\n')` on `String`. -/
def pySplitNl (s : String) : List String := (splitNlCh s.data).map String.mk

/-- Python `s.replace(pat, repl)` on `String`. -/
def pyReplace (s pat repl : String) : String := ⟨replaceAllCh pat.data repl.data s.data⟩

/-- Python `s.startswith(pre)` on `String`. -/
def pyStartsWith (s pre : String) : Bool := pre.data.isPrefixOf s.data

/-- Python `s.rsplit('/', 1)` on `String`. -/
def pyRsplitSlash1 (s : String) : List String := (rsplitSlash1Ch s.data).map String.mk

/-- Python `sorted` on lists of `String` (case-sensitive, ascending). -/
def pySorted (l : List String) : List String := (pySortedCh (l.map String.data)).map String.mk

/-- Python `'\n'.join` on lists of `String`. -/
def pyJoinNl (l : List String) : String := ⟨interNlCh (l.map String.data)⟩

/-- Python `bool()` applied to a `str`: true exactly for non-empty strings. -/
def pyBool (s : String) : Bool := !s.isEmpty

/-- The string is non-empty and its first character is not Python whitespace. -/
def firstCharOk (s : String) : Bool :=
  match s.data with
  | [] => false
  | c :: _ => !pyIsSpace c

/-- The string is non-empty and its last character is not Python whitespace. -/
def lastCharOk (s : String) : Bool :=
  match s.data.reverse with
  | [] => false
  | c :: _ => !pyIsSpace c

namespace RofiRbw

/-- The `RofiRbw.Action` enum of the source (five delivery actions). -/
inductive Action
  | TYPE_PASSWORD
  | TYPE_USERNAME
  | TYPE_BOTH
  | COPY_USERNAME
  | COPY_PASSWORD
deriving DecidableEq

/-- The `Data` namedtuple of the source: a fetched username/password pair. -/
structure Data where
  username : String
  password : String
deriving DecidableEq

/-- Result of a `subprocess.run(..., capture_output=True)` call, as the
program sees it: captured standard output and the process exit status. -/
structure CompletedProcess where
  stdout : String
  returncode : Int
deriving DecidableEq

/-- The parsed configuration fields of `self.args` that the modelled code
reads: resolved default action, prompt, help-banner toggle, extra selector
arguments. -/
structure Config where
  action : Action
  prompt : String
  show_help : Bool
  rofi_args : List String
deriving DecidableEq

/-- The environment of one run: everything the external world returns to the
program.  `ls_returncode` is the exit status of `rbw ls` (captured by
`subprocess.run` but, as the theorems below record, never read),
`selector_returncode` and `selector_chosen` are what
`selector.show_selection` returns, `active_window` is what
`typer.get_active_window()` returns during `__init__`. -/
structure Env where
  ls_stdout : String
  ls_returncode : Int
  active_window : String
  selector_returncode : Int
  selector_chosen : String
deriving DecidableEq

/-- One observable call the program makes to an external collaborator. -/
inductive Ev
  | getActiveWindow (window : String)
  | rbwLs
  | showSelection (stdin : String) (prompt : String) (show_help : Bool) (rofi_args : List String)
  | rbwGet (command : List String)
  | typeChars (characters : String) (window : String)
  | copyToClipboard (characters : String)
deriving DecidableEq

/-- How a run of `main` terminates in this embedding:
`exitZero` models the bare `sys.exit()` of the return-code-1 branch
(success status, no message); `typeErrorGetData` models the `TypeError`
raised at `self.get_data(selected_entry.strip())`, which passes one argument
to the two-parameter method `get_data(self, name, folder)`;
`valueErrorUnpack` models the `ValueError` raised when unpacking the
one-element result of `entry.rsplit('/', 1)` for an entry without `'/'`.
No other termination is reachable in the source as written. -/
inductive Outcome
  | exitZero
  | typeErrorGetData
  | valueErrorUnpack
deriving DecidableEq

/-- Result of `choose_action_from_return_code`: either the program exits
(`sys.exit()`), or `self.args.action` ends up holding the given action. -/
inductive ActionResolution
  | exitProgram
  | resolved (a : Action)
deriving DecidableEq

/-- Source lines 137-149: map the selector's exit code to the action, in the
source's own test order (1, 12, 11, 10, 20, 21); any other code leaves the
configured action unchanged. -/
def choose_action_from_return_code (return_code : Int) (current : Action) : ActionResolution :=
  if return_code = 1 then .exitProgram
  else if return_code = 12 then .resolved .TYPE_PASSWORD
  else if return_code = 11 then .resolved .TYPE_USERNAME
  else if return_code = 10 then .resolved .TYPE_BOTH
  else if return_code = 20 then .resolved .COPY_PASSWORD
  else if return_code = 21 then .resolved .COPY_USERNAME
  else .resolved current

/-- Source lines 151-161: dispatch the fetched data to the typer or
clipboarder; the returned list holds the backend calls made, in order. -/
def execute_action (action : Action) (data : Data) (active_window : String) : List Ev :=
  match action with
  | .TYPE_PASSWORD => [.typeChars data.password active_window]
  | .TYPE_USERNAME => [.typeChars data.username active_window]
  | .TYPE_BOTH => [.typeChars (data.username ++ "\t" ++ data.password) active_window]
  | .COPY_PASSWORD => [.copyToClipboard data.password]
  | .COPY_USERNAME => [.copyToClipboard data.username]

/-- Source lines 164-166: the `rbw get` command line, with `--folder` appended
only when `folder` is non-empty. -/
def get_data_command (name folder : String) : List String :=
  ["rbw", "get", "--full", name] ++ (if folder ≠ "" then ["--folder", folder] else [])

/-- Source lines 179-183: return the first output line starting with
`Username:`, with `'Username: '` removed via `str.replace` (which removes
every occurrence, not only a leading one); `""` when no line matches. -/
def extract_username : List String → String
  | [] => ""
  | resultline :: rest =>
    if pyStartsWith resultline "Username:" then pyReplace resultline "Username: " ""
    else extract_username rest

/-- Source lines 163-177: `get_data(self, name, folder)`.  Returns the command
line it issues together with the `Data` parsed from the store's standard
output.  The exit status in `proc` is faithfully available but, exactly as in
the source, never read: the first line of `stdout.split('\n')` (stripped) is
the password, `extract_username` scans all lines. -/
def get_data (proc : CompletedProcess) (name folder : String) : List String × Data :=
  (get_data_command name folder,
   Data.mk (extract_username (pySplitNl proc.stdout))
     (pyStrip ((pySplitNl proc.stdout).headD "")))

/-- Source lines 116-121: `rbw ls` output processing — strip the captured
standard output, split on newlines, replace tabs by `'/'`, sort. -/
def list_entries (ls_stdout : String) : List String :=
  pySorted ((pySplitNl (pyStrip ls_stdout)).map fun it => pyReplace it "\t" "/")

/-- The calls every run makes before reaching line 131: window capture in
`__init__` (line 41, before the selector is shown), the `rbw ls` invocation,
and the selector invocation fed the joined sorted entries (lines 123-128). -/
def startup_trace (cfg : Config) (env : Env) : List Ev :=
  [Ev.getActiveWindow env.active_window, Ev.rbwLs,
   Ev.showSelection (pyJoinNl (list_entries env.ls_stdout)) cfg.prompt cfg.show_help cfg.rofi_args]

/-- `RofiRbw().main()` as a function of the configuration and the environment:
the trace of external calls plus the way the run terminates.  After the
selector returns, line 129 resolves the action (exit code 1 exits cleanly);
line 131 unpacks `entry.rsplit('/', 1)` into a pair, raising `ValueError`
when the chosen line has no `'/'`; otherwise line 133 calls
`self.get_data(selected_entry.strip())` with a single argument, raising
`TypeError` because `get_data` requires both `name` and `folder`.  Hence no
run ever reaches the `rbw get` invocation or `execute_action`. -/
def main (cfg : Config) (env : Env) : List Ev × Outcome :=
  match choose_action_from_return_code env.selector_returncode cfg.action with
  | .exitProgram => (startup_trace cfg env, .exitZero)
  | .resolved _ =>
    match pyRsplitSlash1 env.selector_chosen with
    | [_, _] => (startup_trace cfg env, .typeErrorGetData)
    | _ => (startup_trace cfg env, .valueErrorUnpack)

/-- Source lines 100-107: the value of `--show-help`.  The option is declared
with `type=bool`, so an explicitly supplied raw string is coerced with
Python's `bool()`; when the option is absent the default `True` applies. -/
def show_help_value : Option String → Bool
  | none => true
  | some raw => pyBool raw

/-- Modelled from the spec: the username rule as the specification words it —
scan the lines for the first one starting with `Username:` and take
everything after the fixed prefix `'Username: '`.  Used only to compare the
specified parse against the implemented `extract_username`. -/
def username_per_spec : List String → String
  | [] => ""
  | l :: rest =>
    if pyStartsWith l "Username:" then ⟨l.data.drop ("Username: ".data.length)⟩
    else username_per_spec rest

/-- The store's standard output for a list of raw records: each record
followed by a newline (equivalently, records joined by newlines plus the
trailing newline). -/
def records_stdout (records : List String) : String :=
  ⟨interNlCh (records.map String.data) ++ ['\n']⟩

/-- A sample configuration used by concrete witnesses. -/
def cfg0 : Config := Config.mk Action.TYPE_PASSWORD "Select entry" true []

/-- Environment of a run whose `rbw ls` failed (exit 2, empty output) and
whose selector reported the user-cancel code 1. -/
def env_ls_failed : Env := Env.mk "" 2 "w0" 1 ""

/-- Environment of a run where the user picked the entry `websites/alice`
with plain Enter (selector exit code 0). -/
def env_slash : Env := Env.mk "websites\talice" 0 "w0" 0 "websites/alice"

/-- Environment of a run where the chosen line `alice` has no `'/'`. -/
def env_noslash : Env := Env.mk "alice" 0 "w0" 0 "alice"

end RofiRbw

/-- `str.split('\n')` never yields an empty list of pieces. -/
theorem splitNlCh_ne_nil (l : List Char) : splitNlCh l ≠ [] := by
  induction l with
  | nil => simp [splitNlCh]
  | cons c rest ih =>
    simp only [splitNlCh]
    split
    · simp
    · split <;> simp

/-- Splitting a newline-free list yields the list itself as the only piece. -/
theorem splitNlCh_eq_single (l : List Char) (h : '\n' ∉ l) : splitNlCh l = [l] := by
  induction l with
  | nil => rfl
  | cons c rest ih =>
    have hc : ¬(c == '\n') = true := by
      simp only [beq_iff_eq]
      intro hcc
      exact h (hcc ▸ List.mem_cons_self c rest)
    have hr : splitNlCh rest = [rest] := ih fun hm => h (List.mem_cons_of_mem _ hm)
    rw [splitNlCh.eq_def]
    simp only [hc, if_false, hr]
    rfl

/-- Splitting after a newline-free piece peels that piece off. -/
theorem splitNlCh_append (r x : List Char) (h : '\n' ∉ r) :
    splitNlCh (r ++ '\n' :: x) = r :: splitNlCh x := by
  induction r with
  | nil => simp [splitNlCh]
  | cons c r' ih =>
    have hc : ¬(c == '\n') = true := by
      simp only [beq_iff_eq]
      intro hcc
      exact h (hcc ▸ List.mem_cons_self c r')
    have ih' := ih fun hm => h (List.mem_cons_of_mem _ hm)
    rw [List.cons_append, splitNlCh.eq_def]
    simp only [hc, if_false, ih']
    rfl

/-- Splitting the newline-join of newline-free pieces recovers the pieces. -/
theorem splitNlCh_interNlCh (l0 : List Char) (ls : List (List Char))
    (h : ∀ r ∈ l0 :: ls, '\n' ∉ r) :
    splitNlCh (interNlCh (l0 :: ls)) = l0 :: ls := by
  induction ls generalizing l0 with
  | nil => exact splitNlCh_eq_single l0 (h l0 (List.mem_cons_self _ _))
  | cons l1 ls' ih =>
    have hstep : interNlCh (l0 :: l1 :: ls') = l0 ++ '\n' :: interNlCh (l1 :: ls') := rfl
    rw [hstep, splitNlCh_append _ _ (h l0 (List.mem_cons_self _ _)),
      ih l1 fun r hr => h r (List.mem_cons_of_mem _ hr)]

/-- `dropWhile` of the whitespace predicate keeps a list whose head is not
whitespace. -/
theorem dropWhile_space_cons {c : Char} {t : List Char} (h : pyIsSpace c = false) :
    (c :: t).dropWhile pyIsSpace = c :: t := by
  simp [List.dropWhile_cons, h]

/-- The newline-join of a cons whose first piece is `c :: t` starts with `c`. -/
theorem interNlCh_cons_head (c : Char) (t : List Char) (rest : List (List Char)) :
    ∃ y, interNlCh ((c :: t) :: rest) = c :: y := by
  cases rest with
  | nil => exact ⟨t, rfl⟩
  | cons l1 ls => exact ⟨t ++ '\n' :: interNlCh (l1 :: ls), rfl⟩

/-- The reverse of a newline-join starts with the reverse of the last piece. -/
theorem interNlCh_reverse (l0 : List Char) (ls : List (List Char)) :
    ∃ y, (interNlCh (l0 :: ls)).reverse = (ls.getLastD l0).reverse ++ y := by
  induction ls generalizing l0 with
  | nil => exact ⟨[], (List.append_nil _).symm⟩
  | cons l1 ls' ih =>
    obtain ⟨y, hy⟩ := ih l1
    refine ⟨y ++ '\n' :: l0.reverse, ?_⟩
    have hstep : interNlCh (l0 :: l1 :: ls') = l0 ++ '\n' :: interNlCh (l1 :: ls') := rfl
    rw [hstep, List.reverse_append, List.reverse_cons, List.getLastD_cons, hy]
    simp [List.append_assoc]

/-- `str.strip()` of a newline-join followed by a trailing newline removes
exactly that newline, when the first piece starts and the last piece ends
with a non-whitespace character. -/
theorem stripCh_interNl (l0 : List Char) (ls : List (List Char))
    (hfirst : ∃ c t, l0 = c :: t ∧ pyIsSpace c = false)
    (hlast : ∃ d u, (ls.getLastD l0).reverse = d :: u ∧ pyIsSpace d = false) :
    stripCh (interNlCh (l0 :: ls) ++ ['\n']) = interNlCh (l0 :: ls) := by
  obtain ⟨c, t, hl0, hc⟩ := hfirst
  obtain ⟨d, u, hlast_eq, hd⟩ := hlast
  subst hl0
  obtain ⟨y, hy⟩ := interNlCh_reverse (c :: t) ls
  rw [hlast_eq] at hy
  obtain ⟨z, hz⟩ := interNlCh_cons_head c t ls
  unfold stripCh
  rw [hz, List.cons_append, dropWhile_space_cons hc, ← List.cons_append, ← hz,
    List.reverse_append]
  have h1 : (['\n'] : List Char).reverse = ['\n'] := rfl
  rw [h1, List.singleton_append, List.dropWhile_cons]
  have h2 : pyIsSpace '\n' = true := rfl
  rw [if_pos h2, hy, List.cons_append, dropWhile_space_cons hd, ← List.cons_append, ← hy,
    List.reverse_reverse]

/-- Inserting into a sorted-by-`strLeCh` list permutes the cons. -/
theorem insertSortedCh_perm (x : List Char) (l : List (List Char)) :
    (insertSortedCh x l).Perm (x :: l) := by
  induction l with
  | nil => exact List.Perm.refl _
  | cons y ys ih =>
    by_cases h : strLeCh x y = true
    · simp only [insertSortedCh, h, if_true]
      exact List.Perm.refl _
    · simp only [insertSortedCh, h, if_false]
      exact (ih.cons y).trans (List.Perm.swap x y ys)

/-- The insertion sort modelling Python `sorted` permutes its input. -/
theorem pySortedCh_perm (l : List (List Char)) : (pySortedCh l).Perm l := by
  induction l with
  | nil => exact List.Perm.refl _
  | cons x xs ih => exact (insertSortedCh_perm x (pySortedCh xs)).trans (ih.cons x)

/-- The lexicographic comparison is total. -/
theorem strLeCh_total (a b : List Char) : strLeCh a b = true ∨ strLeCh b a = true := by
  induction a generalizing b with
  | nil => left; rfl
  | cons x xs ih =>
    cases b with
    | nil => right; rfl
    | cons y ys =>
      by_cases hxy : x = y
      · subst hxy
        rcases ih ys with h | h
        · left; simpa [strLeCh] using h
        · right; simpa [strLeCh] using h
      · rcases lt_or_gt_of_ne hxy with h | h
        · left; simp [strLeCh, hxy, h]
        · right; simp [strLeCh, Ne.symm hxy, h]

/-- The lexicographic comparison is transitive. -/
theorem strLeCh_trans (a b c : List Char) (h1 : strLeCh a b = true)
    (h2 : strLeCh b c = true) : strLeCh a c = true := by
  induction a generalizing b c with
  | nil => rfl
  | cons x xs ih =>
    cases b with
    | nil => simp [strLeCh] at h1
    | cons y ys =>
      cases c with
      | nil => simp [strLeCh] at h2
      | cons z zs =>
        by_cases hxy : x = y <;> by_cases hyz : y = z
        · subst hxy; subst hyz
          simp only [strLeCh, if_pos rfl] at h1 h2 ⊢
          exact ih ys zs h1 h2
        · subst hxy
          have hx : x < z := by simpa [strLeCh, hyz] using h2
          simp only [strLeCh, if_neg hyz, h1]
          simp [ne_of_lt hx, hx]
        · subst hyz
          have hx : x < y := by simpa [strLeCh, hxy] using h1
          simp [strLeCh, hxy, hx]
        · have hx : x < y := by simpa [strLeCh, hxy] using h1
          have hy : y < z := by simpa [strLeCh, hyz] using h2
          have hxz : x < z := lt_trans hx hy
          simp [strLeCh, ne_of_lt hxz, hxz]

/-- Inserting into a `strLeCh`-sorted list keeps it sorted. -/
theorem pairwise_insertSortedCh (x : List Char) (l : List (List Char))
    (hl : l.Pairwise fun a b => strLeCh a b = true) :
    (insertSortedCh x l).Pairwise fun a b => strLeCh a b = true := by
  induction l with
  | nil => simp [insertSortedCh]
  | cons y ys ih =>
    rcases List.pairwise_cons.mp hl with ⟨hy, hys⟩
    by_cases h : strLeCh x y = true
    · simp only [insertSortedCh, h, if_true]
      refine List.pairwise_cons.mpr ⟨?_, hl⟩
      intro b hb
      rcases List.mem_cons.mp hb with rfl | hb'
      · exact h
      · exact strLeCh_trans x y b h (hy b hb')
    · simp only [insertSortedCh, h, if_false]
      refine List.pairwise_cons.mpr ⟨?_, ih hys⟩
      intro b hb
      rcases List.mem_cons.mp ((insertSortedCh_perm x ys).mem_iff.mp hb) with rfl | hb''
      · rcases strLeCh_total b y with hh | hh
        · exact absurd hh h
        · exact hh
      · exact hy b hb''

/-- The insertion sort modelling Python `sorted` yields a `strLeCh`-sorted
list. -/
theorem pySortedCh_pairwise (l : List (List Char)) :
    (pySortedCh l).Pairwise fun a b => strLeCh a b = true := by
  induction l with
  | nil => simp [pySortedCh]
  | cons x xs ih => exact pairwise_insertSortedCh x (pySortedCh xs) ih

/-- `str.replace` leaves a list without any occurrence of the pattern
unchanged, for any amount of fuel. -/
theorem replaceAllAux_of_not_contains (pat repl : List Char) (fuel : Nat) (l : List Char)
    (h : containsSubCh pat l = false) : replaceAllAux pat repl fuel l = l := by
  induction fuel generalizing l with
  | zero => rfl
  | succ f ih =>
    cases l with
    | nil => rfl
    | cons c rest =>
      simp only [containsSubCh, Bool.or_eq_false_iff] at h
      show (if pat ≠ [] ∧ pat.isPrefixOf (c :: rest) = true then
          repl ++ replaceAllAux pat repl f (List.drop pat.length (c :: rest))
        else c :: replaceAllAux pat repl f rest) = c :: rest
      rw [if_neg, ih rest h.2]
      rintro ⟨-, hpre⟩
      rw [h.1] at hpre
      exact Bool.false_ne_true hpre

/-- `str.replace(pat, '')` removes a leading occurrence of the pattern. -/
theorem replaceAllAux_prefix (pat v : List Char) (hp : pat ≠ [])
    (hc : containsSubCh pat v = false) (fuel : Nat) :
    replaceAllAux pat [] (fuel + 1) (pat ++ v) = v := by
  cases pat with
  | nil => exact absurd rfl hp
  | cons p ps =>
    have hpre : (p :: ps).isPrefixOf ((p :: ps) ++ v) = true :=
      List.isPrefixOf_iff_prefix.mpr (List.prefix_append _ _)
    rw [List.cons_append]
    show (if p :: ps ≠ [] ∧ (p :: ps).isPrefixOf (p :: (ps ++ v)) = true then
        [] ++ replaceAllAux (p :: ps) [] fuel (List.drop (p :: ps).length (p :: (ps ++ v)))
      else p :: replaceAllAux (p :: ps) [] fuel (ps ++ v)) = v
    rw [if_pos ⟨hp, by rw [← List.cons_append]; exact hpre⟩, List.nil_append,
      ← List.cons_append, List.drop_left]
    exact replaceAllAux_of_not_contains _ _ _ _ hc

/-- `str.replace(pat, '')` on a string that is exactly the pattern followed by
a pattern-free rest returns the rest. -/
theorem replaceAllCh_prefix (pat v : List Char) (hp : pat ≠ [])
    (hc : containsSubCh pat v = false) :
    replaceAllCh pat [] (pat ++ v) = v := by
  cases pat with
  | nil => exact absurd rfl hp
  | cons p ps =>
    have hlen : ((p :: ps) ++ v).length = (ps ++ v).length + 1 := by
      simp [List.length_append, List.length_cons]
    rw [replaceAllCh, hlen]
    exact replaceAllAux_prefix _ v hp hc _

/-- `extract_username` skips a block of lines none of which starts with
`Username:`. -/
theorem extract_username_append (pre rest : List String)
    (h : ∀ l ∈ pre, pyStartsWith l "Username:" = false) :
    RofiRbw.extract_username (pre ++ rest) = RofiRbw.extract_username rest := by
  induction pre with
  | nil => rfl
  | cons l pre' ih =>
    have hl : pyStartsWith l "Username:" = false := h l (List.mem_cons_self _ _)
    rw [List.cons_append, RofiRbw.extract_username.eq_def]
    simp only [hl, if_false]
    exact ih fun x hx => h x (List.mem_cons_of_mem _ hx)

/-- `extract_username` returns the empty string when no line starts with
`Username:`. -/
theorem extract_username_none (ls : List String)
    (h : ∀ l ∈ ls, pyStartsWith l "Username:" = false) :
    RofiRbw.extract_username ls = "" := by
  induction ls with
  | nil => rfl
  | cons l t ih =>
    rw [RofiRbw.extract_username.eq_def]
    simp only [h l (List.mem_cons_self _ _), if_false]
    exact ih fun x hx => h x (List.mem_cons_of_mem _ hx)

/-- `Username:` is a prefix of `Username: ` followed by anything. -/
theorem isPrefixOf_username (v : List Char) :
    ("Username:".data).isPrefixOf ("Username: ".data ++ v) = true := by
  apply List.isPrefixOf_iff_prefix.mpr
  refine ⟨' ' :: v, ?_⟩
  have h : "Username: ".data = "Username:".data ++ [' '] := by decide
  rw [h, List.append_assoc]
  rfl

/-- The trace of a run never depends on which way the run ends: every branch
of `main` produces exactly the three startup calls. -/
theorem main_fst (cfg : RofiRbw.Config) (env : RofiRbw.Env) :
    (RofiRbw.main cfg env).1 = RofiRbw.startup_trace cfg env := by
  unfold RofiRbw.main
  rcases RofiRbw.choose_action_from_return_code env.selector_returncode cfg.action with _ | a
  · rfl
  · rcases pyRsplitSlash1 env.selector_chosen with _ | ⟨x, _ | ⟨y, _ | ⟨z, t⟩⟩⟩ <;> rfl

/-- Any exit code other than 1 resolves to some action. -/
theorem choose_action_resolved (rc : Int) (a : RofiRbw.Action) (h : rc ≠ 1) :
    ∃ b, RofiRbw.choose_action_from_return_code rc a = .resolved b := by
  unfold RofiRbw.choose_action_from_return_code
  rw [if_neg h]
  repeat' split
  all_goals exact ⟨_, rfl⟩

/-- `rsplit('/', 1)` of a slash-free string is the one-element list. -/
theorem pyRsplitSlash1_no_slash (s : String) (h : '/' ∉ s.data) : pyRsplitSlash1 s = [s] := by
  unfold pyRsplitSlash1 rsplitSlash1Ch
  rw [if_neg h]
  rfl

/-- Re-wrapping the character data of strings is the identity. -/
theorem map_mk_map_data (l : List String) : (l.map String.data).map String.mk = l := by
  rw [List.map_map]
  have h : (String.mk ∘ String.data) = id := funext fun s => rfl
  rw [h, List.map_id]

/-- `getLastD` commutes with taking character data. -/
theorem getLastD_map_data (rest : List String) (r0 : String) :
    (rest.map String.data).getLastD r0.data = (rest.getLastD r0).data := by
  induction rest generalizing r0 with
  | nil => rfl
  | cons a t ih => rw [List.map_cons, List.getLastD_cons, List.getLastD_cons, ih]

/-- `str.split` never returns an empty list of lines. -/
theorem pySplitNl_ne_nil (s : String) : pySplitNl s ≠ [] := by
  intro h
  exact splitNlCh_ne_nil s.data (List.map_eq_nil_iff.mp h)

/-- Python `sorted` returns the empty list only for the empty list. -/
theorem pySorted_eq_nil {l : List String} (h : pySorted l = []) : l = [] := by
  unfold pySorted at h
  rw [List.map_eq_nil_iff] at h
  have hp := pySortedCh_perm (l.map String.data)
  rw [h] at hp
  exact List.map_eq_nil_iff.mp (List.Perm.nil_eq hp).symm

/-- Python `sorted` on strings permutes its input. -/
theorem pySorted_perm (l : List String) : (pySorted l).Perm l := by
  unfold pySorted
  have hp := (pySortedCh_perm (l.map String.data)).map String.mk
  rw [map_mk_map_data] at hp
  exact hp

/-- Python `sorted` on strings is sorted by the case-sensitive lexicographic
order on code points. -/
theorem pySorted_pairwise (l : List String) :
    (pySorted l).Pairwise fun a b => strLeCh a.data b.data = true := by
  unfold pySorted
  exact List.pairwise_map.mpr (pySortedCh_pairwise (l.map String.data))

/-- Claim C1: the spec says that for every run whose selector exit code is not
1 the program invokes the credential fetcher with the selected entry's name
and folder and then executes the resolved action.  The fetch contract
(`get_data(self, name, folder)`) indeed takes both a name and a folder, but
the call site `self.get_data(selected_entry.strip())` passes only one
argument, so every such run raises `TypeError` there (or `ValueError`
earlier, when the chosen line has no `'/'`): `rbw get` is never invoked and
no delivery call is ever made.  The code contradicts its own function
signature; the claim describes the evident intent. -/
theorem claim_C1 (cfg : RofiRbw.Config) (env : RofiRbw.Env)
    (h : env.selector_returncode ≠ 1) :
    ((RofiRbw.main cfg env).2 = RofiRbw.Outcome.typeErrorGetData ∨
      (RofiRbw.main cfg env).2 = RofiRbw.Outcome.valueErrorUnpack)
    ∧ (∀ command, RofiRbw.Ev.rbwGet command ∉ (RofiRbw.main cfg env).1)
    ∧ (∀ s w, RofiRbw.Ev.typeChars s w ∉ (RofiRbw.main cfg env).1)
    ∧ (∀ s, RofiRbw.Ev.copyToClipboard s ∉ (RofiRbw.main cfg env).1) := by
  obtain ⟨b, hb⟩ := choose_action_resolved _ cfg.action h
  refine ⟨?_, ?_, ?_, ?_⟩
  · unfold RofiRbw.main
    rw [hb]
    rcases pyRsplitSlash1 env.selector_chosen with _ | ⟨x, _ | ⟨y, _ | ⟨z, t⟩⟩⟩
    · right; rfl
    · right; rfl
    · left; rfl
    · right; rfl
  · intro command
    rw [main_fst]
    simp [RofiRbw.startup_trace]
  · intro s w
    rw [main_fst]
    simp [RofiRbw.startup_trace]
  · intro s
    rw [main_fst]
    simp [RofiRbw.startup_trace]

/-- Witness for C1 at a concrete run: selector exit code 0, chosen entry
`websites/alice` — the run ends in the `TypeError` and makes no `rbw get`
call and no delivery call. -/
theorem claim_C1_witness :
    RofiRbw.env_slash.selector_returncode ≠ 1
    ∧ (((RofiRbw.main RofiRbw.cfg0 RofiRbw.env_slash).2 = RofiRbw.Outcome.typeErrorGetData ∨
        (RofiRbw.main RofiRbw.cfg0 RofiRbw.env_slash).2 = RofiRbw.Outcome.valueErrorUnpack)
      ∧ (∀ command, RofiRbw.Ev.rbwGet command ∉ (RofiRbw.main RofiRbw.cfg0 RofiRbw.env_slash).1)
      ∧ (∀ s w, RofiRbw.Ev.typeChars s w ∉ (RofiRbw.main RofiRbw.cfg0 RofiRbw.env_slash).1)
      ∧ (∀ s, RofiRbw.Ev.copyToClipboard s ∉ (RofiRbw.main RofiRbw.cfg0 RofiRbw.env_slash).1)) :=
  ⟨by decide, claim_C1 RofiRbw.cfg0 RofiRbw.env_slash (by decide)⟩

/-- Claim C2: the exit-code table of the action resolver is exactly as
specified — 1 exits the program cleanly (success, no message, no external
call after the selector), 10 resolves to type-both, 11 to type-username,
12 to type-password, 20 to copy-password, 21 to copy-username, and every
other code keeps the configured default action. -/
theorem claim_C2 :
    (∀ d : RofiRbw.Action,
      RofiRbw.choose_action_from_return_code 1 d = .exitProgram
      ∧ RofiRbw.choose_action_from_return_code 10 d = .resolved .TYPE_BOTH
      ∧ RofiRbw.choose_action_from_return_code 11 d = .resolved .TYPE_USERNAME
      ∧ RofiRbw.choose_action_from_return_code 12 d = .resolved .TYPE_PASSWORD
      ∧ RofiRbw.choose_action_from_return_code 20 d = .resolved .COPY_PASSWORD
      ∧ RofiRbw.choose_action_from_return_code 21 d = .resolved .COPY_USERNAME)
    ∧ (∀ (rc : Int) (d : RofiRbw.Action),
        rc ≠ 1 → rc ≠ 10 → rc ≠ 11 → rc ≠ 12 → rc ≠ 20 → rc ≠ 21 →
        RofiRbw.choose_action_from_return_code rc d = .resolved d)
    ∧ (∀ (cfg : RofiRbw.Config) (env : RofiRbw.Env), env.selector_returncode = 1 →
        RofiRbw.main cfg env = (RofiRbw.startup_trace cfg env, RofiRbw.Outcome.exitZero)
        ∧ (∀ command, RofiRbw.Ev.rbwGet command ∉ (RofiRbw.main cfg env).1)
        ∧ (∀ s w, RofiRbw.Ev.typeChars s w ∉ (RofiRbw.main cfg env).1)
        ∧ (∀ s, RofiRbw.Ev.copyToClipboard s ∉ (RofiRbw.main cfg env).1)) := by
  refine ⟨fun d => ⟨rfl, rfl, rfl, rfl, rfl, rfl⟩, ?_, ?_⟩
  · intro rc d h1 h10 h11 h12 h20 h21
    unfold RofiRbw.choose_action_from_return_code
    rw [if_neg h1, if_neg h12, if_neg h11, if_neg h10, if_neg h20, if_neg h21]
  · intro cfg env hsel
    have hch : RofiRbw.choose_action_from_return_code env.selector_returncode cfg.action
        = RofiRbw.ActionResolution.exitProgram := by
      rw [hsel]; rfl
    refine ⟨?_, ?_, ?_, ?_⟩
    · unfold RofiRbw.main
      rw [hch]
    · intro command
      rw [main_fst]
      simp [RofiRbw.startup_trace]
    · intro s w
      rw [main_fst]
      simp [RofiRbw.startup_trace]
    · intro s
      rw [main_fst]
      simp [RofiRbw.startup_trace]

/-- Witness for C2 at concrete inputs: exit code 2 keeps the configured
default, and a run with exit code 1 (environment `env_ls_failed`) ends with
the clean success exit. -/
theorem claim_C2_witness :
    ((2 : Int) ≠ 1 ∧ (2 : Int) ≠ 10 ∧ (2 : Int) ≠ 11 ∧ (2 : Int) ≠ 12 ∧
      (2 : Int) ≠ 20 ∧ (2 : Int) ≠ 21)
    ∧ RofiRbw.choose_action_from_return_code 2 RofiRbw.Action.TYPE_USERNAME
        = RofiRbw.ActionResolution.resolved RofiRbw.Action.TYPE_USERNAME
    ∧ RofiRbw.env_ls_failed.selector_returncode = 1
    ∧ RofiRbw.main RofiRbw.cfg0 RofiRbw.env_ls_failed
        = (RofiRbw.startup_trace RofiRbw.cfg0 RofiRbw.env_ls_failed, RofiRbw.Outcome.exitZero) :=
  ⟨⟨by decide, by decide, by decide, by decide, by decide, by decide⟩,
   claim_C2.2.1 2 RofiRbw.Action.TYPE_USERNAME (by decide) (by decide) (by decide) (by decide)
     (by decide) (by decide),
   by decide,
   (claim_C2.2.2 RofiRbw.cfg0 RofiRbw.env_ls_failed rfl).1⟩

/-- Claim C3: the spec says a chosen line without `'/'` resolves to an empty
folder and the whole line as entry name, after which the store's get command
runs without `--folder`.  In the code, `entry.rsplit('/', 1)` on such a line
yields a one-element list and the tuple unpacking at line 131 raises
`ValueError`, so the get command is never reached; the command-construction
half of the claim (no `--folder` when the folder is empty) does hold of
`get_data` in isolation.  The claim describes the evident intent and the
crash is the slip. -/
theorem claim_C3 (cfg : RofiRbw.Config) (env : RofiRbw.Env)
    (h1 : env.selector_returncode ≠ 1) (h2 : '/' ∉ env.selector_chosen.data) :
    (RofiRbw.main cfg env).2 = RofiRbw.Outcome.valueErrorUnpack
    ∧ (∀ command, RofiRbw.Ev.rbwGet command ∉ (RofiRbw.main cfg env).1)
    ∧ (∀ name : String, RofiRbw.get_data_command name "" = ["rbw", "get", "--full", name])
    ∧ (∀ name folder : String, folder ≠ "" →
        RofiRbw.get_data_command name folder
          = ["rbw", "get", "--full", name, "--folder", folder]) := by
  obtain ⟨b, hb⟩ := choose_action_resolved _ cfg.action h1
  refine ⟨?_, ?_, ?_, ?_⟩
  · unfold RofiRbw.main
    rw [hb, pyRsplitSlash1_no_slash _ h2]
  · intro command
    rw [main_fst]
    simp [RofiRbw.startup_trace]
  · intro name
    unfold RofiRbw.get_data_command
    rw [if_neg (by simp)]
    rfl
  · intro name folder hf
    unfold RofiRbw.get_data_command
    rw [if_pos hf]
    rfl

/-- Witness for C3 at a concrete run: chosen line `alice` (no `'/'`),
selector exit code 0 — the run ends in the `ValueError` and `rbw get` is
never invoked; the command for an empty folder carries no `--folder`. -/
theorem claim_C3_witness :
    RofiRbw.env_noslash.selector_returncode ≠ 1
    ∧ '/' ∉ RofiRbw.env_noslash.selector_chosen.data
    ∧ (RofiRbw.main RofiRbw.cfg0 RofiRbw.env_noslash).2 = RofiRbw.Outcome.valueErrorUnpack
    ∧ RofiRbw.get_data_command "alice" "" = ["rbw", "get", "--full", "alice"] :=
  ⟨by decide, by decide,
   (claim_C3 RofiRbw.cfg0 RofiRbw.env_noslash (by decide) (by decide)).1,
   (claim_C3 RofiRbw.cfg0 RofiRbw.env_noslash (by decide) (by decide)).2.2.1 "alice"⟩

/-- Counterexample for C4: on a line containing `Username: ` twice, the code's
`str.replace('Username: ', '')` removes every occurrence, while the claim's
"everything after the fixed prefix" keeps the second occurrence. -/
theorem claim_C4_counterexample :
    RofiRbw.extract_username (pySplitNl "pw\nUsername: a Username: b\n") = "a b"
    ∧ RofiRbw.username_per_spec (pySplitNl "pw\nUsername: a Username: b\n") = "a Username: b"
    ∧ ("a b" : String) ≠ "a Username: b" := by decide

/-- Claim C4 (amended): the password is the first output line stripped; the
username comes from the first line starting with `Username:` with every
occurrence of the substring `'Username: '` removed (Python `str.replace`),
which coincides with "everything after the prefix `'Username: '`" exactly
when the matched line is the prefix followed by text not containing
`'Username: '` again; the empty string is returned when no line matches.
The spec's worked example holds. -/
theorem claim_C4 (proc : RofiRbw.CompletedProcess) (name folder : String) :
    (RofiRbw.get_data proc name folder).2.password = pyStrip ((pySplitNl proc.stdout).headD "")
    ∧ ((∀ l ∈ pySplitNl proc.stdout, pyStartsWith l "Username:" = false) →
        (RofiRbw.get_data proc name folder).2.username = "")
    ∧ (∀ (pre : List String) (v : String) (rest : List String),
        pySplitNl proc.stdout = pre ++ ("Username: " ++ v) :: rest →
        (∀ l ∈ pre, pyStartsWith l "Username:" = false) →
        containsSubCh "Username: ".data v.data = false →
        (RofiRbw.get_data proc name folder).2.username = v)
    ∧ (RofiRbw.get_data (RofiRbw.CompletedProcess.mk "secretpw\nUsername: bob\n" 0) name folder).2
        = RofiRbw.Data.mk "bob" "secretpw" := by
  refine ⟨rfl, ?_, ?_, ?_⟩
  · intro h
    exact extract_username_none _ h
  · intro pre v rest hsplit hpre hcont
    have hu : (RofiRbw.get_data proc name folder).2.username
        = RofiRbw.extract_username (pySplitNl proc.stdout) := rfl
    rw [hu, hsplit, extract_username_append pre _ hpre]
    have hsw : pyStartsWith ("Username: " ++ v) "Username:" = true := by
      unfold pyStartsWith
      rw [String.data_append]
      exact isPrefixOf_username v.data
    show (if pyStartsWith ("Username: " ++ v) "Username:" = true then
        pyReplace ("Username: " ++ v) "Username: " "" else RofiRbw.extract_username rest) = v
    rw [if_pos hsw]
    unfold pyReplace
    have hd : ("Username: " ++ v).data = "Username: ".data ++ v.data := String.data_append _ _
    rw [hd, replaceAllCh_prefix _ _ (by decide) hcont]
  · show RofiRbw.Data.mk (RofiRbw.extract_username (pySplitNl "secretpw\nUsername: bob\n"))
        (pyStrip ((pySplitNl "secretpw\nUsername: bob\n").headD ""))
      = RofiRbw.Data.mk "bob" "secretpw"
    decide

/-- Witness for C4 at the spec's own example `"secretpw\nUsername: bob\n"`:
the hypotheses of the first-match case hold and the parsed username is
`bob`. -/
theorem claim_C4_witness :
    pySplitNl "secretpw\nUsername: bob\n" = ["secretpw"] ++ ("Username: " ++ "bob") :: [""]
    ∧ (∀ l ∈ (["secretpw"] : List String), pyStartsWith l "Username:" = false)
    ∧ containsSubCh "Username: ".data "bob".data = false
    ∧ (RofiRbw.get_data (RofiRbw.CompletedProcess.mk "secretpw\nUsername: bob\n" 0)
        "e" "").2.username = "bob" :=
  ⟨by decide, by decide, by decide,
   (claim_C4 (RofiRbw.CompletedProcess.mk "secretpw\nUsername: bob\n" 0) "e" "").2.2.1
     ["secretpw"] "bob" [""] (by decide) (by decide) (by decide)⟩

/-- Counterexample for C5: for the single record `alice<TAB>` (empty user
field) the claim predicts the display string `alice/`, but the code's
`stdout.strip()` removes the trailing tab together with the trailing
newline before the tab-to-slash replacement, producing `alice`. -/
theorem claim_C5_counterexample :
    RofiRbw.list_entries (RofiRbw.records_stdout ["alice\t"]) = ["alice"]
    ∧ pySorted ((["alice\t"] : List String).map fun r => pyReplace r "\t" "/") = ["alice/"]
    ∧ (["alice"] : List String) ≠ ["alice/"] := by decide

/-- Claim C5 (amended): for every non-empty list of newline-free records
whose first record does not start and whose last record does not end with
whitespace, the entry lister returns exactly the records with every tab
replaced by `'/'`, sorted case-sensitively ascending (a permutation of the
display strings, pairwise ordered by code point).  In general the code
strips all leading/trailing whitespace of the whole captured output —
including, e.g., a trailing tab of the last record — before splitting. -/
theorem claim_C5 (r0 : String) (rest : List String)
    (hnl : ∀ r ∈ r0 :: rest, '\n' ∉ r.data)
    (hfirst : firstCharOk r0 = true)
    (hlast : lastCharOk (rest.getLastD r0) = true) :
    RofiRbw.list_entries (RofiRbw.records_stdout (r0 :: rest))
      = pySorted ((r0 :: rest).map fun r => pyReplace r "\t" "/")
    ∧ (RofiRbw.list_entries (RofiRbw.records_stdout (r0 :: rest))).Perm
        ((r0 :: rest).map fun r => pyReplace r "\t" "/")
    ∧ (RofiRbw.list_entries (RofiRbw.records_stdout (r0 :: rest))).Pairwise
        fun a b => strLeCh a.data b.data = true := by
  have hfirst' : ∃ c t, r0.data = c :: t ∧ pyIsSpace c = false := by
    unfold firstCharOk at hfirst
    rcases hr : r0.data with _ | ⟨c, t⟩
    · rw [hr] at hfirst
      exact absurd hfirst (by simp)
    · rw [hr] at hfirst
      exact ⟨c, t, rfl, by simpa using hfirst⟩
  have hlast0 : ∃ d u, ((rest.map String.data).getLastD r0.data).reverse = d :: u
      ∧ pyIsSpace d = false := by
    rw [getLastD_map_data]
    unfold lastCharOk at hlast
    rcases hr : (rest.getLastD r0).data.reverse with _ | ⟨d, u⟩
    · rw [hr] at hlast
      exact absurd hlast (by simp)
    · rw [hr] at hlast
      exact ⟨d, u, rfl, by simpa using hlast⟩
  have hnl' : ∀ r ∈ r0.data :: rest.map String.data, '\n' ∉ r := by
    intro r hr
    rcases List.mem_cons.mp hr with rfl | hr'
    · exact hnl r0 (List.mem_cons_self _ _)
    · obtain ⟨s, hs, rfl⟩ := List.mem_map.mp hr'
      exact hnl s (List.mem_cons_of_mem _ hs)
  have hdata : (RofiRbw.records_stdout (r0 :: rest)).data
      = interNlCh (r0.data :: rest.map String.data) ++ ['\n'] := rfl
  have hkey : pySplitNl (pyStrip (RofiRbw.records_stdout (r0 :: rest))) = r0 :: rest := by
    show (splitNlCh (stripCh (RofiRbw.records_stdout (r0 :: rest)).data)).map String.mk
        = r0 :: rest
    rw [hdata, stripCh_interNl _ _ hfirst' hlast0, splitNlCh_interNlCh _ _ hnl']
    rw [show r0.data :: rest.map String.data = (r0 :: rest).map String.data from rfl,
      map_mk_map_data]
  have heq : RofiRbw.list_entries (RofiRbw.records_stdout (r0 :: rest))
      = pySorted ((r0 :: rest).map fun r => pyReplace r "\t" "/") := by
    unfold RofiRbw.list_entries
    rw [hkey]
  refine ⟨heq, ?_, ?_⟩
  · rw [heq]
    exact pySorted_perm _
  · rw [heq]
    exact pySorted_pairwise _

/-- Witness for C5 at the spec's own example records `Work<TAB>user1` and
`alice`: the hypotheses hold and the result is exactly
`["Work/user1", "alice"]` (capital letters sort before lowercase). -/
theorem claim_C5_witness :
    (∀ r ∈ (["Work\tuser1", "alice"] : List String), '\n' ∉ r.data)
    ∧ firstCharOk "Work\tuser1" = true
    ∧ lastCharOk ((["alice"] : List String).getLastD "Work\tuser1") = true
    ∧ RofiRbw.list_entries (RofiRbw.records_stdout ["Work\tuser1", "alice"])
        = pySorted ((["Work\tuser1", "alice"] : List String).map fun r => pyReplace r "\t" "/")
    ∧ RofiRbw.list_entries (RofiRbw.records_stdout ["Work\tuser1", "alice"])
        = ["Work/user1", "alice"] :=
  ⟨by decide, by decide, by decide,
   (claim_C5 "Work\tuser1" ["alice"] (by decide) (by decide) (by decide)).1,
   by decide⟩

/-- Counterexample for C6: with the listing command failing (exit status 2,
empty output) the program does not fail with any "listing failed" error — it
shows the selector anyway (here a single blank line) and, the selector
reporting code 1, even terminates with success. -/
theorem claim_C6_counterexample :
    RofiRbw.env_ls_failed.ls_returncode = 2
    ∧ RofiRbw.Ev.showSelection "" "Select entry" true []
        ∈ (RofiRbw.main RofiRbw.cfg0 RofiRbw.env_ls_failed).1
    ∧ (RofiRbw.main RofiRbw.cfg0 RofiRbw.env_ls_failed).2 = RofiRbw.Outcome.exitZero := by
  decide

/-- Claim C6 (amended): the program never inspects the listing command's exit
status — a run is identical for every value of it — and whatever standard
output was captured is processed and shown to the selector; no "listing
failed" path exists in the code. -/
theorem claim_C6 (cfg : RofiRbw.Config) (env : RofiRbw.Env) (rc : Int) :
    RofiRbw.main cfg
        (RofiRbw.Env.mk env.ls_stdout rc env.active_window env.selector_returncode
          env.selector_chosen)
      = RofiRbw.main cfg env
    ∧ RofiRbw.Ev.showSelection (pyJoinNl (RofiRbw.list_entries env.ls_stdout)) cfg.prompt
        cfg.show_help cfg.rofi_args ∈ (RofiRbw.main cfg env).1 := by
  refine ⟨rfl, ?_⟩
  rw [main_fst]
  simp [RofiRbw.startup_trace]

/-- Counterexample for C7: with the get command failing (exit status 2 and
empty output), `get_data` does not fail with any "fetch failed" error — it
returns the empty credential, which `execute_action` would deliver with a
normal backend call. -/
theorem claim_C7_counterexample :
    (RofiRbw.get_data (RofiRbw.CompletedProcess.mk "" 2) "alice" "").2 = RofiRbw.Data.mk "" ""
    ∧ RofiRbw.execute_action RofiRbw.Action.TYPE_PASSWORD (RofiRbw.Data.mk "" "") "w0"
        = [RofiRbw.Ev.typeChars "" "w0"] := by decide

/-- Claim C7 (amended): `get_data` never checks the store's exit status or
the emptiness of its output — the parsed credential is a function of the
standard output alone, empty output parses to the empty credential, and the
executor delivers whatever credential it is handed with exactly one backend
call; no "fetch failed" path exists in the code. -/
theorem claim_C7 (stdout : String) (c1 c2 : Int) (name folder : String)
    (a : RofiRbw.Action) (w : String) :
    RofiRbw.get_data (RofiRbw.CompletedProcess.mk stdout c1) name folder
      = RofiRbw.get_data (RofiRbw.CompletedProcess.mk stdout c2) name folder
    ∧ (RofiRbw.get_data (RofiRbw.CompletedProcess.mk "" c1) name folder).2
        = RofiRbw.Data.mk "" ""
    ∧ (RofiRbw.execute_action a
        (RofiRbw.get_data (RofiRbw.CompletedProcess.mk stdout c1) name folder).2 w).length
        = 1 := by
  refine ⟨rfl, ?_, ?_⟩
  · show RofiRbw.Data.mk (RofiRbw.extract_username (pySplitNl ""))
        (pyStrip ((pySplitNl "").headD "")) = RofiRbw.Data.mk "" ""
    decide
  · cases a <;> rfl

/-- Claim C8: the executor makes exactly one backend call per action —
type-password/type-username type the respective field, type-both types the
single payload `username + TAB + password` (so `Credential("bob","secretpw")`
yields `"bob\tsecretpw"`), the copy actions place the respective field on
the clipboard — and every run's very first external call is the capture of
the active window, made in `__init__` before the selector is shown. -/
theorem claim_C8 :
    (∀ (d : RofiRbw.Data) (w : String),
      RofiRbw.execute_action RofiRbw.Action.TYPE_PASSWORD d w
          = [RofiRbw.Ev.typeChars d.password w]
      ∧ RofiRbw.execute_action RofiRbw.Action.TYPE_USERNAME d w
          = [RofiRbw.Ev.typeChars d.username w]
      ∧ RofiRbw.execute_action RofiRbw.Action.TYPE_BOTH d w
          = [RofiRbw.Ev.typeChars (d.username ++ "\t" ++ d.password) w]
      ∧ RofiRbw.execute_action RofiRbw.Action.COPY_PASSWORD d w
          = [RofiRbw.Ev.copyToClipboard d.password]
      ∧ RofiRbw.execute_action RofiRbw.Action.COPY_USERNAME d w
          = [RofiRbw.Ev.copyToClipboard d.username]
      ∧ ∀ a, (RofiRbw.execute_action a d w).length = 1)
    ∧ (∀ w, RofiRbw.execute_action RofiRbw.Action.TYPE_BOTH (RofiRbw.Data.mk "bob" "secretpw") w
        = [RofiRbw.Ev.typeChars "bob\tsecretpw" w])
    ∧ (∀ (cfg : RofiRbw.Config) (env : RofiRbw.Env),
        (RofiRbw.main cfg env).1.head? = some (RofiRbw.Ev.getActiveWindow env.active_window)) := by
  refine ⟨fun d w => ⟨rfl, rfl, rfl, rfl, rfl, fun a => by cases a <;> rfl⟩,
    fun w => ?_, fun cfg env => ?_⟩
  · have hs : ("bob" ++ "\t" ++ "secretpw" : String) = "bob\tsecretpw" := by decide
    show [RofiRbw.Ev.typeChars ("bob" ++ "\t" ++ "secretpw") w]
        = [RofiRbw.Ev.typeChars "bob\tsecretpw" w]
    rw [hs]
  · rw [main_fst]
    rfl

/-- Claim C9: because `--show-help` is declared with `type=bool`, an
explicitly supplied raw value is coerced with Python's `bool()` on the raw
string: every non-empty value — including `"false"` and `"0"` — yields
`True`, and only the empty string yields `False`. -/
theorem claim_C9 :
    (∀ raw : String, raw ≠ "" → RofiRbw.show_help_value (some raw) = true)
    ∧ RofiRbw.show_help_value (some "false") = true
    ∧ RofiRbw.show_help_value (some "0") = true
    ∧ RofiRbw.show_help_value (some "") = false
    ∧ ∀ raw : String, (RofiRbw.show_help_value (some raw) = true ↔ raw ≠ "") := by
  have key : ∀ raw : String, (RofiRbw.show_help_value (some raw) = true ↔ raw ≠ "") := by
    intro raw
    show (!raw.isEmpty) = true ↔ raw ≠ ""
    rw [Bool.not_eq_true']
    constructor
    · intro h heq
      rw [heq] at h
      exact absurd h (by decide)
    · intro h
      cases hb : raw.isEmpty
      · rfl
      · exact absurd ((String.isEmpty_iff raw).mp hb) h
  exact ⟨fun raw h => (key raw).mpr h, (key "false").mpr (by decide), (key "0").mpr (by decide),
    by decide, key⟩

/-- Witness for C9 at the concrete value `"false"`. -/
theorem claim_C9_witness :
    ("false" : String) ≠ "" ∧ RofiRbw.show_help_value (some "false") = true :=
  ⟨by decide, claim_C9.1 "false" (by decide)⟩

/-- Claim C10: empty listing output produces the one-element entry list
`[""]` — the entry list is never empty for any output — so the selector is
always shown at least one (possibly blank) line. -/
theorem claim_C10 :
    RofiRbw.list_entries "" = [""]
    ∧ (∀ s : String, RofiRbw.list_entries s ≠ [])
    ∧ (∀ (cfg : RofiRbw.Config) (env : RofiRbw.Env), env.ls_stdout = "" →
        RofiRbw.Ev.showSelection "" cfg.prompt cfg.show_help cfg.rofi_args
          ∈ (RofiRbw.main cfg env).1) := by
  refine ⟨by decide, ?_, ?_⟩
  · intro s h
    unfold RofiRbw.list_entries at h
    have h2 := pySorted_eq_nil h
    rw [List.map_eq_nil_iff] at h2
    exact pySplitNl_ne_nil _ h2
  · intro cfg env hls
    rw [main_fst]
    unfold RofiRbw.startup_trace
    rw [hls]
    have hj : pyJoinNl (RofiRbw.list_entries "") = "" := by decide
    rw [hj]
    simp

/-- Witness for C10 at the concrete run `env_ls_failed`, whose listing output
is empty: the selector is shown the single blank line. -/
theorem claim_C10_witness :
    RofiRbw.env_ls_failed.ls_stdout = ""
    ∧ RofiRbw.Ev.showSelection "" RofiRbw.cfg0.prompt RofiRbw.cfg0.show_help RofiRbw.cfg0.rofi_args
        ∈ (RofiRbw.main RofiRbw.cfg0 RofiRbw.env_ls_failed).1 :=
  ⟨rfl, claim_C10.2.2 RofiRbw.cfg0 RofiRbw.env_ls_failed rfl⟩
